import Mathlib

/-!
# stream-hud synchronization engine: shallow embedding and verification

This file embeds the core of the stream-hud repository in Lean 4 and proves
properties of it:

* the authoritative checklist store and its mutation operations
  (express server variant, `unnamed/part_000`: `toggleTaskById`,
  `resetAllTasks`, `addTask`, `deleteTask`, `editTask`, `moveTaskUp`,
  `moveTaskDown`, `moveTaskToPosition`, `saveTasksFile`, `debouncedSave`,
  `broadcastToAll`, the HTTP handlers);
* the legacy push-only server variant (`services/checklist-ws/src/server.ts`)
  with its periodic broadcast;
* the client reconnect/backoff logic
  (`apps/checklist-overlay/src/lib/ws.ts`);
* the selection-continuity heuristic
  (`apps/hud-controller/src/tasks.ts`, `maintainSelection`).

JavaScript arrays become `List`, in-place mutation becomes explicit state
passing, `undefined`-able fields become `Option`, and JS numbers used as
indices/positions become `Int`/`Nat` as appropriate.
-/

/-- `ChecklistItem` from `unnamed/part_000` lines 14-21: optional fields
(`completed?`, `group?`, `order?`) become `Option`. -/
structure ChecklistItem where
  id : String
  text : String
  done : Bool
  completed : Option Bool := none
  group : Option String := none
  order : Option Int := none
deriving Repr, DecidableEq

/-- `ChecklistData` from `unnamed/part_000` lines 23-27. -/
structure ChecklistData where
  items : List ChecklistItem
  ts : Int
  selectedTaskId : Option String := none
deriving Repr, DecidableEq

/-- Mutate the first element satisfying `p` (JS `Array.prototype.find`
followed by in-place mutation of the found object). -/
def updateFirst (p : ChecklistItem → Bool) (f : ChecklistItem → ChecklistItem) :
    List ChecklistItem → List ChecklistItem
  | [] => []
  | x :: xs => if p x then f x :: xs else x :: updateFirst p f xs

/-- `items.forEach((item, index) => { item.order = index })`, the renumbering
pass used by `deleteTask`, the wrap cases of `moveTaskUp`/`moveTaskDown`, and
`moveTaskToPosition`. -/
def renumber (l : List ChecklistItem) : List ChecklistItem :=
  l.enum.map fun pr => { pr.2 with order := some (pr.1 : Int) }

/-- `items.findIndex(item => item.id === taskId)`, returning `none` for `-1`. -/
def findIdxOfId (taskId : String) (l : List ChecklistItem) : Option Nat :=
  l.findIdx? fun it => it.id == taskId

/-- `items[i].order = i` for an in-bounds index (no-op out of bounds; the
source only executes it in bounds). -/
def setOrderAt (l : List ChecklistItem) (i : Nat) : List ChecklistItem :=
  match l[i]? with
  | some it => l.set i { it with order := some (i : Int) }
  | none => l

/-- `toggleTaskById` (`unnamed/part_000` lines 488-502), restricted to its
effect on the item list: find the task, flip `done`, and set `completed` to
the new `done` ("Keep both properties in sync"). Returns the source's boolean
result paired with the updated list. -/
def toggleTaskById (taskId : String) (items : List ChecklistItem) :
    Bool × List ChecklistItem :=
  if (items.find? fun it => it.id == taskId).isSome then
    (true, updateFirst (fun it => it.id == taskId)
      (fun it => { it with done := !it.done, completed := some (!it.done) }) items)
  else (false, items)

/-- `resetAllTasks` (`unnamed/part_000` lines 504-517) on the item list:
every task gets `done = false` and `completed = false`. -/
def resetAllTasks (items : List ChecklistItem) : List ChecklistItem :=
  items.map fun it => { it with done := false, completed := some false }

/-- `addTask` (`unnamed/part_000` lines 519-537) on the item list. The id is
generated from `Date.now()` and `Math.random()` in the source, so it is a
parameter here. The new task is pushed with `order = items.length`. -/
def addTask (newId text : String) (items : List ChecklistItem) :
    List ChecklistItem :=
  items ++ [{ id := newId, text := text, done := false, completed := some false,
              group := none, order := some (items.length : Int) }]

/-- `deleteTask` (`unnamed/part_000` lines 539-557) on the item list:
`findIndex`, `splice(taskIndex, 1)`, then renumber every remaining order. -/
def deleteTask (taskId : String) (items : List ChecklistItem) :
    Bool × List ChecklistItem :=
  match findIdxOfId taskId items with
  | none => (false, items)
  | some i => (true, renumber (items.eraseIdx i))

/-- `editTask` (`unnamed/part_000` lines 559-573) on the item list. -/
def editTask (taskId newText : String) (items : List ChecklistItem) :
    Bool × List ChecklistItem :=
  if (items.find? fun it => it.id == taskId).isSome then
    (true, updateFirst (fun it => it.id == taskId)
      (fun it => { it with text := newText }) items)
  else (false, items)

/-- `moveTaskUp` (`unnamed/part_000` lines 575-610): wrap the first task to
the bottom (splice + push + full renumber), otherwise swap with the task
above and rewrite only the two affected `order` fields
(`items[i].order = i; items[i-1].order = i-1`). -/
def moveTaskUp (taskId : String) (items : List ChecklistItem) :
    Bool × List ChecklistItem :=
  if items.length = 0 then (false, items)
  else
    match findIdxOfId taskId items with
    | none => (false, items)
    | some i =>
      match items[i]? with
      | none => (false, items)
      | some task =>
        if i = 0 then
          (true, renumber (items.eraseIdx i ++ [task]))
        else
          let l1 := match items[i-1]? with
            | some above => items.set i above
            | none => items
          let l2 := l1.set (i-1) task
          (true, setOrderAt (setOrderAt l2 i) (i-1))

/-- `moveTaskDown` (`unnamed/part_000` lines 612-647): wrap the last task to
the top (splice + unshift + full renumber), otherwise swap with the task
below and rewrite only the two affected `order` fields. -/
def moveTaskDown (taskId : String) (items : List ChecklistItem) :
    Bool × List ChecklistItem :=
  if items.length = 0 then (false, items)
  else
    match findIdxOfId taskId items with
    | none => (false, items)
    | some i =>
      match items[i]? with
      | none => (false, items)
      | some task =>
        if i = items.length - 1 then
          (true, renumber (task :: items.eraseIdx i))
        else
          let l1 := match items[i+1]? with
            | some below => items.set i below
            | none => items
          let l2 := l1.set (i+1) task
          (true, setOrderAt (setOrderAt l2 i) (i+1))

/-- `Math.max(0, Math.min(targetPosition, maxPosition))` from
`moveTaskToPosition`, with `maxPosition = length - 1`. -/
def clampPos (target : Int) (length : Nat) : Int :=
  max 0 (min target ((length : Int) - 1))

/-- `moveTaskToPosition` (`unnamed/part_000` lines 649-685): clamp the target
into `[0, N-1]`; if the clamped target equals the current index return success
without touching the list; otherwise splice the task out, insert it at the
clamped position, and renumber everyone. -/
def moveTaskToPosition (taskId : String) (targetPosition : Int)
    (items : List ChecklistItem) : Bool × List ChecklistItem :=
  if items.length = 0 then (false, items)
  else
    match findIdxOfId taskId items with
    | none => (false, items)
    | some i =>
      let clamped := clampPos targetPosition items.length
      if (i : Int) = clamped then (true, items)
      else
        match items[i]? with
        | none => (false, items)
        | some task =>
          (true, renumber ((items.eraseIdx i).insertIdx clamped.toNat task))

/-- The `GET /tasks` handler's normalization (`unnamed/part_000` lines
95-107): every returned task gets `completed = item.done || item.completed
|| false` (with the JS `undefined` treated as `false`). -/
def normalizeTasks (items : List ChecklistItem) : List ChecklistItem :=
  items.map fun it => { it with completed := some (it.done || it.completed.getD false) }

/-! ## Selection continuity (`apps/hud-controller/src/tasks.ts`, lines 133-178) -/

/-- `maintainSelection` as the pure function
`(previousTasks, selectedIndex, newTasks) → newSelectedIndex`:
(1) either list empty → 0; (2) if the previously selected task (by index
into the previous list) still exists by id in the new list, keep it;
(3) else if the new list is longer and contains ids absent from the previous
list, select the first such newly appeared task; (4) else clamp the index
(`Math.min` then `Math.max(0, ·)`). -/
def maintainSelection (prevTasks : List ChecklistItem) (selectedIndex : Nat)
    (newTasks : List ChecklistItem) : Nat :=
  if prevTasks.length = 0 ∨ newTasks.length = 0 then 0
  else
    let keepById : Option Nat :=
      match prevTasks[selectedIndex]? with
      | some pSel => newTasks.findIdx? fun t => t.id == pSel.id
      | none => none
    match keepById with
    | some newIndex => newIndex
    | none =>
      let addedBranch : Option Nat :=
        if prevTasks.length < newTasks.length then
          let prevIds := prevTasks.map (·.id)
          newTasks.findIdx? fun t => !(prevIds.contains t.id)
        else none
      match addedBranch with
      | some i => i
      | none => max 0 (min selectedIndex (newTasks.length - 1))

/-! ## Server-level model (`unnamed/part_000`)

The express server variant keeps `lastData` (the in-memory authority),
the class field `selectedTaskId`, and writes `lastData` to the tasks file
(`mirror` here) in `saveTasksFile`. Handlers return a reply, mutate state,
and emit broadcasts; the order of effects is recorded in a trace. -/

/-- The payload built by `broadcastToAll` (`unnamed/part_000` lines 422-454):
`{ type: 'tasks_updated', tasks: data.items, selectedTaskId:
this.selectedTaskId || undefined }`. -/
structure BroadcastPayload where
  tasks : List ChecklistItem
  selectedTaskId : Option String
deriving Repr, DecidableEq

/-- Observable effects of a mutation handler, in program order:
`saveNow` is a synchronous `saveTasksFile()` call, `debouncedSave` schedules
(or replaces) the 100ms timer, `broadcast` is a fan-out to the push channels,
and `reply` is the HTTP response telling the caller whether the mutation
succeeded. -/
inductive ServerEffect
  | saveNow
  | debouncedSave
  | broadcast (p : BroadcastPayload)
  | reply (ok : Bool)
deriving Repr, DecidableEq

/-- Server state: in-memory `lastData`, the `selectedTaskId` class field,
and the durable mirror (the tasks file content). -/
structure ServerState where
  lastData : Option ChecklistData := none
  selectedTaskId : Option String := none
  mirror : Option ChecklistData := none
deriving Repr, DecidableEq

/-- `saveTasksFile` (`unnamed/part_000` lines 687-703): refresh `ts` on the
in-memory data, then attempt the durable write. `ok` abstracts whether
`writeFileSync` succeeds; on failure the error is caught and logged, the
mirror keeps its old content, and the in-memory data (ts already refreshed)
is left as is — nothing is rolled back or rethrown. -/
def saveTasksFileS (ok : Bool) (now : Int) (s : ServerState) : ServerState :=
  match s.lastData with
  | none => s
  | some d =>
      let d' := { d with ts := now }
      { s with lastData := some d', mirror := if ok then some d' else s.mirror }

/-- The broadcast emitted after a mutation: `broadcastToAll(this.lastData)`
with the current `selectedTaskId` class field. -/
def mkBroadcast (items : List ChecklistItem) (sel : Option String) :
    BroadcastPayload :=
  { tasks := items, selectedTaskId := sel }

/-- The `POST /tasks/toggle` path through `toggleTaskById`
(`unnamed/part_000` lines 124-142, 488-502): mutate in memory, save
immediately, broadcast, reply success. -/
def serverToggle (saveOk : Bool) (now : Int) (taskId : String)
    (s : ServerState) : ServerState × List ServerEffect :=
  match s.lastData with
  | none => (s, [.reply false])
  | some data =>
      let r := toggleTaskById taskId data.items
      if r.1 then
        let s1 := { s with lastData := some { data with items := r.2 } }
        let s2 := saveTasksFileS saveOk now s1
        (s2, [.saveNow, .broadcast (mkBroadcast r.2 s2.selectedTaskId), .reply true])
      else (s, [.reply false])

/-- The `POST /tasks/reset` path through `resetAllTasks`
(`unnamed/part_000` lines 144-157, 504-517): immediate save, broadcast,
reply. -/
def serverReset (saveOk : Bool) (now : Int) (s : ServerState) :
    ServerState × List ServerEffect :=
  match s.lastData with
  | none => (s, [.reply false])
  | some data =>
      let items' := resetAllTasks data.items
      let s1 := { s with lastData := some { data with items := items' } }
      let s2 := saveTasksFileS saveOk now s1
      (s2, [.saveNow, .broadcast (mkBroadcast items' s2.selectedTaskId), .reply true])

/-- The `POST /tasks/add` path through `addTask`
(`unnamed/part_000` lines 159-172, 519-537): immediate save, broadcast,
reply. -/
def serverAdd (saveOk : Bool) (now : Int) (newId text : String)
    (s : ServerState) : ServerState × List ServerEffect :=
  match s.lastData with
  | none => (s, [.reply false])
  | some data =>
      let items' := addTask newId text data.items
      let s1 := { s with lastData := some { data with items := items' } }
      let s2 := saveTasksFileS saveOk now s1
      (s2, [.saveNow, .broadcast (mkBroadcast items' s2.selectedTaskId), .reply true])

/-- The `POST /tasks/delete` path through `deleteTask`
(`unnamed/part_000` lines 174-193, 539-557): on success the save happens
synchronously before the handler replies; `selectedTaskId` is never
touched. -/
def serverDelete (saveOk : Bool) (now : Int) (taskId : String)
    (s : ServerState) : ServerState × List ServerEffect :=
  match s.lastData with
  | none => (s, [.reply false])
  | some data =>
      let r := deleteTask taskId data.items
      if r.1 then
        let s1 := { s with lastData := some { data with items := r.2 } }
        let s2 := saveTasksFileS saveOk now s1
        (s2, [.saveNow, .broadcast (mkBroadcast r.2 s2.selectedTaskId), .reply true])
      else (s, [.reply false])

/-- The `POST /tasks/edit` path through `editTask`
(`unnamed/part_000` lines 195-217, 559-573): immediate save, broadcast,
reply. -/
def serverEdit (saveOk : Bool) (now : Int) (taskId newText : String)
    (s : ServerState) : ServerState × List ServerEffect :=
  match s.lastData with
  | none => (s, [.reply false])
  | some data =>
      let r := editTask taskId newText data.items
      if r.1 then
        let s1 := { s with lastData := some { data with items := r.2 } }
        let s2 := saveTasksFileS saveOk now s1
        (s2, [.saveNow, .broadcast (mkBroadcast r.2 s2.selectedTaskId), .reply true])
      else (s, [.reply false])

/-- The `POST /tasks/select` handler (`unnamed/part_000` lines 220-235):
validates the id when one is given (`taskId && !found → 404`), then stores
`taskId || null` and broadcasts a selection update. A JS empty string is
falsy, hence the `t ≠ ""` guards. -/
def serverSelect (taskId : Option String) (s : ServerState) :
    ServerState × List ServerEffect :=
  match s.lastData with
  | none => (s, [.reply false])
  | some data =>
      let invalid : Bool := match taskId with
        | some t => t != "" && (data.items.find? fun it => it.id == t).isNone
        | none => false
      if invalid then (s, [.reply false])
      else
        let sel := match taskId with
          | some t => if t = "" then none else some t
          | none => none
        let s1 := { s with selectedTaskId := sel }
        (s1, [.broadcast (mkBroadcast data.items sel), .reply true])

/-- The `POST /tasks/move-up` path through `moveTaskUp`
(`unnamed/part_000` lines 237-254, 575-610): on success the durable write
goes through `debouncedSave()`, not `saveTasksFile()`. -/
def serverMoveUp (taskId : String) (s : ServerState) :
    ServerState × List ServerEffect :=
  match s.lastData with
  | none => (s, [.reply false])
  | some data =>
      let r := moveTaskUp taskId data.items
      if r.1 then
        let s1 := { s with lastData := some { data with items := r.2 } }
        (s1, [.debouncedSave, .broadcast (mkBroadcast r.2 s.selectedTaskId), .reply true])
      else (s, [.reply false])

/-- The `POST /tasks/move-down` path through `moveTaskDown`
(`unnamed/part_000` lines 256-273, 612-647): debounced save on success. -/
def serverMoveDown (taskId : String) (s : ServerState) :
    ServerState × List ServerEffect :=
  match s.lastData with
  | none => (s, [.reply false])
  | some data =>
      let r := moveTaskDown taskId data.items
      if r.1 then
        let s1 := { s with lastData := some { data with items := r.2 } }
        (s1, [.debouncedSave, .broadcast (mkBroadcast r.2 s.selectedTaskId), .reply true])
      else (s, [.reply false])

/-- The `POST /tasks/move-to-position` path through `moveTaskToPosition`
(`unnamed/part_000` lines 276-295, 649-685). The early-return branch
(`currentIndex === clampedPosition`) replies success without saving or
broadcasting; the moving branch uses the debounced save. -/
def serverMoveToPosition (taskId : String) (targetPosition : Int)
    (s : ServerState) : ServerState × List ServerEffect :=
  match s.lastData with
  | none => (s, [.reply false])
  | some data =>
      if data.items.length = 0 then (s, [.reply false])
      else
        match findIdxOfId taskId data.items with
        | none => (s, [.reply false])
        | some i =>
          let clamped := clampPos targetPosition data.items.length
          if (i : Int) = clamped then (s, [.reply true])
          else
            match data.items[i]? with
            | none => (s, [.reply false])
            | some task =>
              let items' := renumber ((data.items.eraseIdx i).insertIdx clamped.toNat task)
              let s1 := { s with lastData := some { data with items := items' } }
              (s1, [.debouncedSave, .broadcast (mkBroadcast items' s.selectedTaskId), .reply true])

/-! ## Broadcast triggers and the two server variants -/

/-- Timer-driven broadcasts of the express variant (`unnamed/part_000`):
its constructor registers no broadcast interval — line 68 reads
"Removed periodic broadcast to prevent overlay flickering" and
`broadcastInterval` is never assigned (lines 485-486 repeat the comment).
A timer tick therefore emits nothing. -/
def currentServerTimerBroadcasts (_s : ServerState) : List BroadcastPayload :=
  []

/-- State of the legacy push-only variant
(`services/checklist-ws/src/server.ts`): `lastData` plus the number of
connected clients. -/
structure LegacyServerState where
  lastData : Option ChecklistData := none
  clientCount : Nat := 0
deriving Repr, DecidableEq

/-- One tick of `startPeriodicBroadcast`
(`services/checklist-ws/src/server.ts` lines 185-192): every 2000 ms, if
data is loaded and at least one client is connected, `broadcastToAll`
pushes the last snapshot unchanged. -/
def legacyPeriodicTick (s : LegacyServerState) : List ChecklistData :=
  match s.lastData with
  | none => []
  | some d => if 0 < s.clientCount then [d] else []

/-- The legacy variant's broadcast interval in milliseconds
(`server.ts` line 191). -/
def legacyBroadcastIntervalMs : Nat := 2000

/-! ## Client reconnect backoff (`apps/checklist-overlay/src/lib/ws.ts`) -/

/-- `maxReconnectAttempts` (`ws.ts` line 28). -/
def maxReconnectAttempts : Nat := 5

/-- The delay computed by `scheduleReconnect` (`ws.ts` line 110):
`Math.min(1000 * Math.pow(2, attempts), 30000)`. -/
def reconnectDelay (attempts : Nat) : Nat :=
  min (1000 * 2 ^ attempts) 30000

/-- Client channel mode: trying to (re)connect the WebSocket, connected, or
permanently fallen back to the 2-second poll loop. -/
inductive AgentMode
  | connecting
  | connected
  | pollingOnly
deriving Repr, DecidableEq

/-- Client agent state: mode plus `reconnectAttempts`. -/
structure AgentState where
  mode : AgentMode
  attempts : Nat
deriving Repr, DecidableEq

/-- The channel events driving the agent: `onopen` and `onclose`
(`ws.ts` lines 68-98). -/
inductive AgentEvent
  | openOk
  | closeEvt
deriving Repr, DecidableEq

/-- One event step of the agent, returning the new state and the reconnect
delay scheduled by `scheduleReconnect`, if any. `onopen` resets
`reconnectAttempts` to 0 (`ws.ts` line 72); `onclose` schedules a reconnect
after `reconnectDelay attempts` and increments `attempts` while
`attempts < maxReconnectAttempts`, otherwise starts polling and never
reconnects again (`ws.ts` lines 87-98, 109-118). Once in `pollingOnly`
there is no socket left, so channel events no longer occur. -/
def agentStep (s : AgentState) (ev : AgentEvent) : AgentState × Option Nat :=
  match ev with
  | .openOk =>
      match s.mode with
      | .pollingOnly => (s, none)
      | _ => ({ mode := .connected, attempts := 0 }, none)
  | .closeEvt =>
      match s.mode with
      | .pollingOnly => (s, none)
      | _ =>
          if s.attempts < maxReconnectAttempts then
            ({ mode := .connecting, attempts := s.attempts + 1 },
             some (reconnectDelay s.attempts))
          else
            ({ mode := .pollingOnly, attempts := s.attempts }, none)

/-- Run the agent over a sequence of channel events, collecting every
scheduled reconnect delay. -/
def agentRun (s : AgentState) : List AgentEvent → AgentState × List Nat
  | [] => (s, [])
  | ev :: evs =>
      let (s', d) := agentStep s ev
      let (s'', ds) := agentRun s' evs
      (s'', d.toList ++ ds)

/-! ## Debounced save machine (`unnamed/part_000` lines 705-714)

`debouncedSave` clears any pending timer and arms a fresh one 100 ms out;
when a timer actually fires, `saveTasksFile` writes the state current at
fire time. The machine below replays a sequence of timestamped
`debouncedSave` requests (each carrying the state just mutated) and
collects the durable writes as `(fire time, written state)` pairs. -/

/-- The debounce window (`unnamed/part_000` line 713). -/
def debounceWindowMs : Nat := 100

/-- Debounce machine state: the current in-memory state and the absolute
deadline of the pending timer, if one is armed. -/
structure DebounceState (σ : Type) where
  cur : σ
  pending : Option Nat
deriving Repr, DecidableEq

/-- One `debouncedSave` request at time `t` with freshly mutated state
`st`. If the pending timer's deadline has already passed it fired first,
writing the then-current state at its deadline; otherwise `clearTimeout`
discards it. Either way a new timer is armed for `t + window`. -/
def debounceCall (window : Nat) (t : Nat) (st : σ) (s : DebounceState σ) :
    DebounceState σ × List (Nat × σ) :=
  let fired : List (Nat × σ) :=
    match s.pending with
    | some d => if d ≤ t then [(d, s.cur)] else []
    | none => []
  ({ cur := st, pending := some (t + window) }, fired)

/-- Replay a list of timestamped `debouncedSave` requests (times
nondecreasing), collecting the writes fired along the way. -/
def debounceRun (window : Nat) : List (Nat × σ) → DebounceState σ →
    DebounceState σ × List (Nat × σ)
  | [], s => (s, [])
  | c :: cs, s =>
      let (s', w) := debounceCall window c.1 c.2 s
      let (s'', ws) := debounceRun window cs s'
      (s'', w ++ ws)

/-- After the burst ends, a still-pending timer fires and writes the final
state. -/
def debounceFlush (s : DebounceState σ) : List (Nat × σ) :=
  match s.pending with
  | some d => [(d, s.cur)]
  | none => []

/-! ## Concrete fixtures used in witnesses and counterexamples -/

/-- A three-task list `[A, B, C]` with orders matching positions. -/
def taskA : ChecklistItem :=
  { id := "A", text := "Task A", done := false, completed := some false,
    group := none, order := some 0 }

/-- Second fixture task. -/
def taskB : ChecklistItem :=
  { id := "B", text := "Task B", done := false, completed := some false,
    group := none, order := some 1 }

/-- Third fixture task. -/
def taskC : ChecklistItem :=
  { id := "C", text := "Task C", done := true, completed := some true,
    group := none, order := some 2 }

/-! ## Helper lemmas -/

/-- If no task in the list carries the id, `findIndex` returns `-1`
(`none`). -/
theorem findIdxOfId_eq_none_of_absent (taskId : String)
    (items : List ChecklistItem) (h : ∀ t ∈ items, t.id ≠ taskId) :
    findIdxOfId taskId items = none := by
  simp only [findIdxOfId, List.findIdx?_eq_none_iff]
  intro t ht
  simpa using h t ht

/-- `renumber` evaluated on a singleton. -/
theorem renumber_singleton (t : ChecklistItem) :
    renumber [t] = [{ t with order := some 0 }] := rfl

/-- C4 part: a wrap on a one-element, correctly numbered list is the
identity. -/
theorem renumber_singleton_self {t : ChecklistItem} (h : t.order = some 0) :
    renumber [t] = [t] := by
  obtain ⟨id, text, done, completed, group, order⟩ := t
  simp only [ChecklistItem.mk.injEq] at *
  simp [renumber, h]

/-! ## C4: wrap-around reordering -/

/-- C4: on `[A,B,C]`, `moveUp(A)` yields `[B,C,A]` and `moveDown(C)` yields
`[C,A,B]` (wrap-around, orders renumbered to 0,1,2); on a single-task list
(numbered 0) both report success and the wrap leaves the list equal to
itself; both fail (`NotFound`) for an absent id, leaving the list
untouched. -/
theorem c4_wraparound_moves :
    (moveTaskUp "A" [taskA, taskB, taskC] =
      (true, [{ taskB with order := some 0 }, { taskC with order := some 1 },
              { taskA with order := some 2 }])) ∧
    (moveTaskDown "C" [taskA, taskB, taskC] =
      (true, [{ taskC with order := some 0 }, { taskA with order := some 1 },
              { taskB with order := some 2 }])) ∧
    (∀ t : ChecklistItem, t.order = some 0 →
      moveTaskUp t.id [t] = (true, [t]) ∧ moveTaskDown t.id [t] = (true, [t])) ∧
    (∀ (items : List ChecklistItem) (taskId : String),
      (∀ t ∈ items, t.id ≠ taskId) →
      moveTaskUp taskId items = (false, items) ∧
      moveTaskDown taskId items = (false, items)) := by
  refine ⟨by decide, by decide, ?_, ?_⟩
  · intro t h
    constructor
    · simp [moveTaskUp, findIdxOfId, renumber_singleton_self h]
    · simp [moveTaskDown, findIdxOfId, renumber_singleton_self h]
  · intro items taskId h
    have hf := findIdxOfId_eq_none_of_absent taskId items h
    constructor
    · simp [moveTaskUp, hf]
    · simp [moveTaskDown, hf]

/-- Witness for C4: the quantified parts applied to a concrete singleton
list and a concrete absent id. -/
theorem c4_wraparound_moves_witness :
    (moveTaskUp "A" [taskA] = (true, [taskA]) ∧
     moveTaskDown "A" [taskA] = (true, [taskA])) ∧
    (moveTaskUp "nope" [taskA, taskB] = (false, [taskA, taskB]) ∧
     moveTaskDown "nope" [taskA, taskB] = (false, [taskA, taskB])) :=
  ⟨c4_wraparound_moves.2.2.1 taskA rfl,
   c4_wraparound_moves.2.2.2 [taskA, taskB] "nope" (by decide)⟩

/-! ## C5: clamping and the idempotent no-op move -/

/-- Clamping is idempotent. -/
theorem clampPos_idem (t : Int) (n : Nat) :
    clampPos (clampPos t n) n = clampPos t n := by
  unfold clampPos
  omega

/-- C5: `moveTaskToPosition` behaves as if the target were clamped into
`[0, N-1]` first, and when the clamped target equals the task's current
index it reports success and returns the item list unchanged. -/
theorem c5_move_to_position_noop :
    (∀ (taskId : String) (target : Int) (items : List ChecklistItem),
      moveTaskToPosition taskId target items =
        moveTaskToPosition taskId (clampPos target items.length) items) ∧
    (∀ (taskId : String) (target : Int) (items : List ChecklistItem) (i : Nat),
      findIdxOfId taskId items = some i →
      clampPos target items.length = (i : Int) →
      moveTaskToPosition taskId target items = (true, items)) := by
  constructor
  · intro taskId target items
    by_cases h0 : items.length = 0
    · simp [moveTaskToPosition, h0]
    · cases hf : findIdxOfId taskId items with
      | none => simp [moveTaskToPosition, h0, hf]
      | some i => simp [moveTaskToPosition, h0, hf, clampPos_idem]
  · intro taskId target items i hf hc
    have h0 : ¬ items.length = 0 := by
      intro h
      rw [List.length_eq_zero] at h
      subst h
      simp [findIdxOfId] at hf
    simp [moveTaskToPosition, h0, hf, hc]

/-- Witness for C5: an overlarge target (5) on a two-task list clamps to the
current index 1 of task B, so the call succeeds and leaves the list
unchanged. -/
theorem c5_move_to_position_noop_witness :
    moveTaskToPosition "B" 5 [taskA, taskB] = (true, [taskA, taskB]) :=
  c5_move_to_position_noop.2 "B" 5 [taskA, taskB] 1 (by decide) (by decide)

/-! ## C2: selection continuity on a grown list -/

/-- C2 counterexample: previous list `[A,B]` with selection at index 0, new
list `[A,B,C]`. The newly appeared task C sits at index 2, but
`maintainSelection` returns 0 — identity matching (step 2) fires before the
new-item bias, so the cursor does NOT move to the newly added task. -/
theorem c2_selection_bias_counterexample :
    maintainSelection [taskA, taskB] 0 [taskA, taskB, taskC] = 0 ∧
    [taskA, taskB, taskC].findIdx?
      (fun t => !(([taskA, taskB].map (·.id)).contains t.id)) = some 2 ∧
    (0 : Nat) ≠ 2 := by decide

/-- C2 amended: if the previously selected task (by index into the previous
list) still exists by id in the new list, its new index is selected — even
when new tasks appeared; the first newly appeared task is selected only when
the new list is longer and the previously selected task cannot be matched in
it. -/
theorem c2_selection_identity_precedence :
    (∀ (prevTasks newTasks : List ChecklistItem) (selIdx : Nat)
       (p : ChecklistItem) (j : Nat),
      prevTasks[selIdx]? = some p →
      newTasks.findIdx? (fun t => t.id == p.id) = some j →
      maintainSelection prevTasks selIdx newTasks = j) ∧
    (∀ (prevTasks newTasks : List ChecklistItem) (selIdx : Nat)
       (p : ChecklistItem) (k : Nat),
      prevTasks[selIdx]? = some p →
      newTasks.findIdx? (fun t => t.id == p.id) = none →
      prevTasks.length < newTasks.length →
      newTasks.findIdx? (fun t => !((prevTasks.map (·.id)).contains t.id)) = some k →
      maintainSelection prevTasks selIdx newTasks = k) := by
  constructor
  · intro prevTasks newTasks selIdx p j hp hj
    have hprev : ¬ prevTasks.length = 0 := by
      intro h
      rw [List.length_eq_zero] at h
      subst h
      simp at hp
    have hnew : ¬ newTasks.length = 0 := by
      intro h
      rw [List.length_eq_zero] at h
      subst h
      simp at hj
    simp [maintainSelection, hprev, hnew, hp, hj]
  · intro prevTasks newTasks selIdx p k hp hj hlen hk
    have hprev : ¬ prevTasks.length = 0 := by
      intro h
      rw [List.length_eq_zero] at h
      subst h
      simp at hp
    have hnew : ¬ newTasks.length = 0 := by
      intro h
      rw [List.length_eq_zero] at h
      subst h
      simp at hlen
    simp at hk
    simp [maintainSelection, hprev, hnew, hp, hj, hlen, hk]

/-- Witness for C2: both amended branches at concrete inputs — identity
keeps index 0 on `[A,B] → [A,B,C]`; with the selected task deleted and a
new one added, the new task's index is selected. -/
theorem c2_selection_identity_precedence_witness :
    maintainSelection [taskA, taskB] 0 [taskA, taskB, taskC] = 0 ∧
    maintainSelection [taskA, taskB] 0 [taskB, { taskA with id := "D" }, taskC] = 1 := by
  constructor
  · exact c2_selection_identity_precedence.1 [taskA, taskB] [taskA, taskB, taskC]
      0 taskA 0 (by decide) (by decide)
  · exact c2_selection_identity_precedence.2 [taskA, taskB]
      [taskB, { taskA with id := "D" }, taskC] 0 taskA 1
      (by decide) (by decide) (by decide) (by decide)

/-! ## C10: the two completion flags -/

/-- Membership in `updateFirst`: every element of the result is an original
element or the image under `f` of an original element. -/
theorem mem_updateFirst {p : ChecklistItem → Bool} {f : ChecklistItem → ChecklistItem}
    {l : List ChecklistItem} {it : ChecklistItem} (h : it ∈ updateFirst p f l) :
    it ∈ l ∨ ∃ u ∈ l, it = f u := by
  induction l with
  | nil => simp [updateFirst] at h
  | cons x xs ih =>
    simp only [updateFirst] at h
    by_cases hp : p x
    · rw [if_pos hp] at h
      rcases List.mem_cons.mp h with h1 | h1
      · exact Or.inr ⟨x, List.mem_cons_self .., h1⟩
      · exact Or.inl (List.mem_cons_of_mem _ h1)
    · rw [if_neg hp] at h
      rcases List.mem_cons.mp h with h1 | h1
      · exact Or.inl (h1 ▸ List.mem_cons_self ..)
      · rcases ih h1 with h2 | ⟨u, hu, he⟩
        · exact Or.inl (List.mem_cons_of_mem _ h2)
        · exact Or.inr ⟨u, List.mem_cons_of_mem _ hu, he⟩

/-- A task persisted with the legacy flag combination `done = false`,
`completed = true` (possible in the watched file, which the load path does
not normalize). -/
def legacyMismatchTask : ChecklistItem :=
  { id := "L", text := "Legacy", done := false, completed := some true,
    group := none, order := some 0 }

/-- C10 counterexample: start from a store holding a task with
`done = false, completed = true`, perform an add mutation (which does not
touch that task), and read the fetch-list endpoint: the returned list
contains a task whose normalized `completed` (`done || completed || false =
true`) disagrees with its `done` (`false`) — the reader does observe the two
flags disagreeing after a mutation. -/
theorem c10_flags_disagree_counterexample :
    ((normalizeTasks (addTask "task_new" "New" [legacyMismatchTask])).any
      fun it => it.completed != some it.done) = true := by decide

/-- C10 amended: toggle, reset, and add leave every task they touch with
`completed = done` (tasks they do not touch are returned unchanged), and the
fetch-list normalization preserves agreement — so a reader observes agreeing
flags for every task the mutation affected, and for all tasks whenever the
stored flags already agreed; only tasks loaded with the legacy combination
`done = false, completed = true` and untouched by the mutation can still be
observed disagreeing. -/
theorem c10_completion_flags_sync :
    (∀ (taskId : String) (items : List ChecklistItem) (it : ChecklistItem),
      it ∈ (toggleTaskById taskId items).2 →
      it ∈ items ∨ it.completed = some it.done) ∧
    (∀ (items : List ChecklistItem) (it : ChecklistItem),
      it ∈ resetAllTasks items → it.completed = some it.done) ∧
    (∀ (newId text : String) (items : List ChecklistItem) (it : ChecklistItem),
      it ∈ addTask newId text items → it ∈ items ∨ it.completed = some it.done) ∧
    (∀ (items : List ChecklistItem),
      (∀ u ∈ items, u.completed = some u.done) →
      ∀ it ∈ normalizeTasks items, it.completed = some it.done) := by
  refine ⟨?_, ?_, ?_, ?_⟩
  · intro taskId items it h
    rw [toggleTaskById] at h
    by_cases hf : (items.find? fun it => it.id == taskId).isSome
    · rw [if_pos hf] at h
      rcases mem_updateFirst h with h1 | ⟨u, _, he⟩
      · exact Or.inl h1
      · exact Or.inr (by rw [he])
    · rw [if_neg hf] at h
      exact Or.inl h
  · intro items it h
    rcases List.mem_map.mp h with ⟨u, _, he⟩
    rw [← he]
  · intro newId text items it h
    rcases List.mem_append.mp h with h1 | h1
    · exact Or.inl h1
    · rcases List.mem_singleton.mp h1 with rfl
      exact Or.inr rfl
  · intro items hall it h
    rcases List.mem_map.mp h with ⟨u, hu, he⟩
    rw [← he]
    simp [hall u hu]

/-- Witness for C10: the quantified parts applied to concrete tasks — a
task untouched by a toggle of another id, a task produced by reset, and a
task returned by the fetch normalization of an agreeing store. -/
theorem c10_completion_flags_sync_witness :
    (taskA ∈ [taskA, taskB] ∨ taskA.completed = some taskA.done) ∧
    ({ taskC with done := false, completed := some false } : ChecklistItem).completed =
      some ({ taskC with done := false, completed := some false } : ChecklistItem).done ∧
    taskA.completed = some taskA.done :=
  ⟨c10_completion_flags_sync.1 "B" [taskA, taskB] taskA (by decide),
   c10_completion_flags_sync.2.1 [taskC]
     { taskC with done := false, completed := some false } (by decide),
   c10_completion_flags_sync.2.2.2 [taskA] (by decide) taskA (by decide)⟩

/-! ## C1: selection validity across select and delete -/

/-- A one-task store used for the selection counterexample. -/
def cexData : ChecklistData := { items := [taskA], ts := 0, selectedTaskId := none }

/-- A server state whose selection points at the only task. -/
def cexSelState : ServerState :=
  { lastData := some cexData, selectedTaskId := some "A", mirror := none }

/-- C1 counterexample: deleting the currently selected task does NOT clear
`selectedTaskId` — the state keeps `some "A"` and the broadcast sent during
the delete carries `selectedTaskId = "A"` alongside a task list in which no
task has id "A": a dangling reference in a produced snapshot. -/
theorem c1_dangling_selection_counterexample :
    (serverDelete true 1 "A" cexSelState).1.selectedTaskId = some "A" ∧
    (serverDelete true 1 "A" cexSelState).2 =
      [.saveNow, .broadcast { tasks := [], selectedTaskId := some "A" }, .reply true] ∧
    (([] : List ChecklistItem).find? fun it => it.id == "A") = none := by decide

/-- C1 amended: the select endpoint does validate — a non-empty id absent
from the store is rejected with the state unchanged, and a present id is
stored and so references an existing task at that moment; but `deleteTask`
never touches `selectedTaskId`, so deleting the selected task leaves the
stale id in place for subsequently produced broadcasts. -/
theorem c1_select_validates_delete_never_clears :
    (∀ (s : ServerState) (data : ChecklistData) (t : String),
      s.lastData = some data → t ≠ "" →
      (data.items.find? fun it => it.id == t) = none →
      serverSelect (some t) s = (s, [.reply false])) ∧
    (∀ (s : ServerState) (data : ChecklistData) (t : String) (u : ChecklistItem),
      s.lastData = some data → t ≠ "" →
      (data.items.find? fun it => it.id == t) = some u →
      (serverSelect (some t) s).1.selectedTaskId = some t ∧
      u ∈ data.items ∧ u.id = t) ∧
    (∀ (saveOk : Bool) (now : Int) (taskId : String) (s : ServerState),
      (serverDelete saveOk now taskId s).1.selectedTaskId = s.selectedTaskId) := by
  refine ⟨?_, ?_, ?_⟩
  · intro s data t hs hne hfind
    simp [serverSelect, hs, hne, hfind]
  · intro s data t u hs hne hfind
    refine ⟨by simp [serverSelect, hs, hne, hfind], List.mem_of_find?_eq_some hfind, ?_⟩
    have := List.find?_some hfind
    simpa using this
  · intro saveOk now taskId s
    cases hs : s.lastData with
    | none => simp [serverDelete, hs]
    | some data =>
        by_cases hd : (deleteTask taskId data.items).1 <;>
          simp [serverDelete, hs, hd, saveTasksFileS]

/-- Witness for C1: the three amended parts at concrete inputs — rejecting
an absent id, accepting the present id "A", and the delete that leaves the
selection field untouched. -/
theorem c1_select_validates_witness :
    serverSelect (some "Z") cexSelState = (cexSelState, [.reply false]) ∧
    (serverSelect (some "A") cexSelState).1.selectedTaskId = some "A" ∧
    (serverDelete false 2 "A" cexSelState).1.selectedTaskId = cexSelState.selectedTaskId :=
  ⟨c1_select_validates_delete_never_clears.1 cexSelState cexData "Z" rfl
     (by decide) (by decide),
   (c1_select_validates_delete_never_clears.2.1 cexSelState cexData "A" taskA rfl
     (by decide) (by decide)).1,
   c1_select_validates_delete_never_clears.2.2 false 2 "A" cexSelState⟩

/-! ## C7: durable-write failure never rolls back the in-memory mutation -/

/-- C7: for every mutation, a failed durable write never undoes or blocks
the in-memory change. The first conjunct is about `saveTasksFile` itself
and so covers every save site, the deferred debounced one included: a
failed write keeps the in-memory items (only `ts` was refreshed), leaves
the mirror untouched, and a later successful attempt persists the current
state. The toggle/reset/add/delete/edit conjuncts show each immediate-save
mutation ending, after a failed write, with the same in-memory state as
after a successful one, the change still broadcast, and the mirror
unchanged, while a later save persists the mutation. The reorder conjuncts
show moveUp/moveDown/moveToPosition never writing the mirror synchronously
at all: the mutated items are in memory and broadcast with the mirror
untouched, so no mirror-write outcome can undo them. -/
theorem c7_save_failure_no_rollback :
    (∀ (now now2 : Int) (s : ServerState) (d : ChecklistData),
      s.lastData = some d →
      (saveTasksFileS false now s).lastData = some { d with ts := now } ∧
      (saveTasksFileS false now s).mirror = s.mirror ∧
      (saveTasksFileS true now2 (saveTasksFileS false now s)).mirror =
        some { d with ts := now2 }) ∧
    (∀ (now now2 : Int) (taskId : String) (s : ServerState) (data : ChecklistData),
      s.lastData = some data →
      (toggleTaskById taskId data.items).1 = true →
      (serverToggle false now taskId s).1.lastData =
        some { data with items := (toggleTaskById taskId data.items).2, ts := now } ∧
      (serverToggle false now taskId s).1.lastData =
        (serverToggle true now taskId s).1.lastData ∧
      ServerEffect.broadcast
          (mkBroadcast (toggleTaskById taskId data.items).2 s.selectedTaskId) ∈
        (serverToggle false now taskId s).2 ∧
      (serverToggle false now taskId s).1.mirror = s.mirror ∧
      (saveTasksFileS true now2 (serverToggle false now taskId s).1).mirror =
        some { data with items := (toggleTaskById taskId data.items).2, ts := now2 }) ∧
    (∀ (now now2 : Int) (s : ServerState) (data : ChecklistData),
      s.lastData = some data →
      (serverReset false now s).1.lastData =
        some { data with items := resetAllTasks data.items, ts := now } ∧
      (serverReset false now s).1.lastData = (serverReset true now s).1.lastData ∧
      ServerEffect.broadcast
          (mkBroadcast (resetAllTasks data.items) s.selectedTaskId) ∈
        (serverReset false now s).2 ∧
      (serverReset false now s).1.mirror = s.mirror ∧
      (saveTasksFileS true now2 (serverReset false now s).1).mirror =
        some { data with items := resetAllTasks data.items, ts := now2 }) ∧
    (∀ (now now2 : Int) (newId text : String) (s : ServerState) (data : ChecklistData),
      s.lastData = some data →
      (serverAdd false now newId text s).1.lastData =
        some { data with items := addTask newId text data.items, ts := now } ∧
      (serverAdd false now newId text s).1.lastData =
        (serverAdd true now newId text s).1.lastData ∧
      ServerEffect.broadcast
          (mkBroadcast (addTask newId text data.items) s.selectedTaskId) ∈
        (serverAdd false now newId text s).2 ∧
      (serverAdd false now newId text s).1.mirror = s.mirror ∧
      (saveTasksFileS true now2 (serverAdd false now newId text s).1).mirror =
        some { data with items := addTask newId text data.items, ts := now2 }) ∧
    (∀ (now now2 : Int) (taskId : String) (s : ServerState) (data : ChecklistData),
      s.lastData = some data →
      (deleteTask taskId data.items).1 = true →
      (serverDelete false now taskId s).1.lastData =
        some { data with items := (deleteTask taskId data.items).2, ts := now } ∧
      (serverDelete false now taskId s).1.lastData =
        (serverDelete true now taskId s).1.lastData ∧
      ServerEffect.broadcast
          (mkBroadcast (deleteTask taskId data.items).2 s.selectedTaskId) ∈
        (serverDelete false now taskId s).2 ∧
      (serverDelete false now taskId s).1.mirror = s.mirror ∧
      (saveTasksFileS true now2 (serverDelete false now taskId s).1).mirror =
        some { data with items := (deleteTask taskId data.items).2, ts := now2 }) ∧
    (∀ (now now2 : Int) (taskId newText : String) (s : ServerState) (data : ChecklistData),
      s.lastData = some data →
      (editTask taskId newText data.items).1 = true →
      (serverEdit false now taskId newText s).1.lastData =
        some { data with items := (editTask taskId newText data.items).2, ts := now } ∧
      (serverEdit false now taskId newText s).1.lastData =
        (serverEdit true now taskId newText s).1.lastData ∧
      ServerEffect.broadcast
          (mkBroadcast (editTask taskId newText data.items).2 s.selectedTaskId) ∈
        (serverEdit false now taskId newText s).2 ∧
      (serverEdit false now taskId newText s).1.mirror = s.mirror ∧
      (saveTasksFileS true now2 (serverEdit false now taskId newText s).1).mirror =
        some { data with items := (editTask taskId newText data.items).2, ts := now2 }) ∧
    (∀ (taskId : String) (s : ServerState) (data : ChecklistData),
      s.lastData = some data →
      (moveTaskUp taskId data.items).1 = true →
      (serverMoveUp taskId s).1.lastData =
        some { data with items := (moveTaskUp taskId data.items).2 } ∧
      (serverMoveUp taskId s).1.mirror = s.mirror ∧
      ServerEffect.broadcast
          (mkBroadcast (moveTaskUp taskId data.items).2 s.selectedTaskId) ∈
        (serverMoveUp taskId s).2) ∧
    (∀ (taskId : String) (s : ServerState) (data : ChecklistData),
      s.lastData = some data →
      (moveTaskDown taskId data.items).1 = true →
      (serverMoveDown taskId s).1.lastData =
        some { data with items := (moveTaskDown taskId data.items).2 } ∧
      (serverMoveDown taskId s).1.mirror = s.mirror ∧
      ServerEffect.broadcast
          (mkBroadcast (moveTaskDown taskId data.items).2 s.selectedTaskId) ∈
        (serverMoveDown taskId s).2) ∧
    (∀ (taskId : String) (target : Int) (s : ServerState),
      (serverMoveToPosition taskId target s).1.mirror = s.mirror ∧
      ((serverMoveToPosition taskId target s).1 = s ∨
        ∃ (data : ChecklistData) (itemsMoved : List ChecklistItem),
          s.lastData = some data ∧
          (serverMoveToPosition taskId target s).1.lastData =
            some { data with items := itemsMoved } ∧
          ServerEffect.broadcast (mkBroadcast itemsMoved s.selectedTaskId) ∈
            (serverMoveToPosition taskId target s).2)) := by
  refine ⟨?_, ?_, ?_, ?_, ?_, ?_, ?_, ?_, ?_⟩
  · intro now now2 s d hs
    refine ⟨?_, ?_, ?_⟩ <;> simp [saveTasksFileS, hs]
  · intro now now2 taskId s data hs hr
    refine ⟨?_, ?_, ?_, ?_, ?_⟩ <;>
      simp [serverToggle, hs, hr, saveTasksFileS, mkBroadcast]
  · intro now now2 s data hs
    refine ⟨?_, ?_, ?_, ?_, ?_⟩ <;>
      simp [serverReset, hs, saveTasksFileS, mkBroadcast]
  · intro now now2 newId text s data hs
    refine ⟨?_, ?_, ?_, ?_, ?_⟩ <;>
      simp [serverAdd, hs, saveTasksFileS, mkBroadcast]
  · intro now now2 taskId s data hs hr
    refine ⟨?_, ?_, ?_, ?_, ?_⟩ <;>
      simp [serverDelete, hs, hr, saveTasksFileS, mkBroadcast]
  · intro now now2 taskId newText s data hs hr
    refine ⟨?_, ?_, ?_, ?_, ?_⟩ <;>
      simp [serverEdit, hs, hr, saveTasksFileS, mkBroadcast]
  · intro taskId s data hs hr
    refine ⟨?_, ?_, ?_⟩ <;> simp [serverMoveUp, hs, hr, mkBroadcast]
  · intro taskId s data hs hr
    refine ⟨?_, ?_, ?_⟩ <;> simp [serverMoveDown, hs, hr, mkBroadcast]
  · intro taskId target s
    cases hs : s.lastData with
    | none =>
        exact ⟨by simp [serverMoveToPosition, hs],
          Or.inl (by simp [serverMoveToPosition, hs])⟩
    | some data =>
        by_cases h0 : data.items.length = 0
        · exact ⟨by simp [serverMoveToPosition, hs, h0],
            Or.inl (by simp [serverMoveToPosition, hs, h0])⟩
        · cases hf : findIdxOfId taskId data.items with
          | none =>
              exact ⟨by simp [serverMoveToPosition, hs, h0, hf],
                Or.inl (by simp [serverMoveToPosition, hs, h0, hf])⟩
          | some i =>
              by_cases hc : (i : Int) = clampPos target data.items.length
              · exact ⟨by simp [serverMoveToPosition, hs, h0, hf, hc],
                  Or.inl (by simp [serverMoveToPosition, hs, h0, hf, hc])⟩
              · cases hg : data.items[i]? with
                | none =>
                    exact ⟨by simp [serverMoveToPosition, hs, h0, hf, hc, hg],
                      Or.inl (by simp [serverMoveToPosition, hs, h0, hf, hc, hg])⟩
                | some task =>
                    refine ⟨by simp [serverMoveToPosition, hs, h0, hf, hc, hg],
                      Or.inr ⟨data, renumber ((data.items.eraseIdx i).insertIdx
                        (clampPos target data.items.length).toNat task), rfl, ?_, ?_⟩⟩
                    · simp [serverMoveToPosition, hs, h0, hf, hc, hg]
                    · simp [serverMoveToPosition, hs, h0, hf, hc, hg, mkBroadcast]

/-- Witness for C7: every hypothesis-bearing conjunct applied to the
one-task store — a failed standalone save, then toggle, reset, add,
delete, edit, moveUp, and moveDown, each with a failed durable write. -/
theorem c7_save_failure_no_rollback_witness :
    (saveTasksFileS false 20 cexSelState).mirror = cexSelState.mirror ∧
    (serverToggle false 10 "A" cexSelState).1.lastData =
      (serverToggle true 10 "A" cexSelState).1.lastData ∧
    (serverReset false 12 cexSelState).1.mirror = cexSelState.mirror ∧
    (serverAdd false 14 "task_n" "N" cexSelState).1.lastData =
      (serverAdd true 14 "task_n" "N" cexSelState).1.lastData ∧
    (saveTasksFileS true 17 (serverDelete false 16 "A" cexSelState).1).mirror =
      some { cexData with items := (deleteTask "A" cexData.items).2, ts := 17 } ∧
    (serverEdit false 18 "A" "edited" cexSelState).1.mirror = cexSelState.mirror ∧
    (serverMoveUp "A" cexSelState).1.mirror = cexSelState.mirror ∧
    ServerEffect.broadcast
        (mkBroadcast (moveTaskDown "A" cexData.items).2 cexSelState.selectedTaskId) ∈
      (serverMoveDown "A" cexSelState).2 :=
  ⟨(c7_save_failure_no_rollback.1 20 21 cexSelState cexData rfl).2.1,
   (c7_save_failure_no_rollback.2.1 10 11 "A" cexSelState cexData rfl (by decide)).2.1,
   (c7_save_failure_no_rollback.2.2.1 12 13 cexSelState cexData rfl).2.2.2.1,
   (c7_save_failure_no_rollback.2.2.2.1 14 15 "task_n" "N" cexSelState cexData rfl).2.1,
   (c7_save_failure_no_rollback.2.2.2.2.1 16 17 "A" cexSelState cexData rfl
     (by decide)).2.2.2.2,
   (c7_save_failure_no_rollback.2.2.2.2.2.1 18 19 "A" "edited" cexSelState cexData rfl
     (by decide)).2.2.2.1,
   (c7_save_failure_no_rollback.2.2.2.2.2.2.1 "A" cexSelState cexData rfl
     (by decide)).2.1,
   (c7_save_failure_no_rollback.2.2.2.2.2.2.2.1 "A" cexSelState cexData rfl
     (by decide)).2.2⟩

/-! ## C8: change-triggered broadcasts vs the legacy 2-second timer -/

/-- C8 counterexample: the legacy server variant
(`services/checklist-ws/src/server.ts`) starts `startPeriodicBroadcast`
unconditionally in its constructor (line 50), so with data loaded and one
client connected each 2-second timer tick broadcasts the snapshot — a
broadcast performed on a timer, not triggered by any state change. -/
theorem c8_timer_broadcast_counterexample :
    legacyPeriodicTick { lastData := some cexData, clientCount := 1 } = [cexData] ∧
    ([cexData] : List ChecklistData) ≠ [] := by decide

/-- C8 amended: the current express variant (`unnamed/part_000`) registers
no broadcast timer — a timer tick emits nothing there, every broadcast being
issued from a mutation handler, the select handler, or the file-reload path;
the legacy variant in `services/checklist-ws`, however, broadcasts the last
snapshot on every 2-second tick whenever data is loaded and at least one
client is connected (and only then). -/
theorem c8_change_triggered_vs_legacy_timer :
    (∀ s : ServerState, currentServerTimerBroadcasts s = []) ∧
    (∀ (d : ChecklistData) (n : Nat), 0 < n →
      legacyPeriodicTick { lastData := some d, clientCount := n } = [d]) ∧
    (∀ s : LegacyServerState, s.lastData = none ∨ s.clientCount = 0 →
      legacyPeriodicTick s = []) := by
  refine ⟨fun s => rfl, ?_, ?_⟩
  · intro d n hn
    simp [legacyPeriodicTick, hn]
  · intro s h
    rcases h with h | h <;> simp [legacyPeriodicTick, h]
    cases hl : s.lastData <;> simp

/-- Witness for C8: one tick of the legacy timer with data and one client,
and one with no clients. -/
theorem c8_change_triggered_vs_legacy_timer_witness :
    legacyPeriodicTick { lastData := some cexData, clientCount := 2 } = [cexData] ∧
    legacyPeriodicTick { lastData := some cexData, clientCount := 0 } = [] :=
  ⟨c8_change_triggered_vs_legacy_timer.2.1 cexData 2 (by decide),
   c8_change_triggered_vs_legacy_timer.2.2
     { lastData := some cexData, clientCount := 0 } (Or.inr rfl)⟩

/-! ## C9: reconnect backoff cap and permanent pull fallback -/

/-- C9: every scheduled reconnect delay equals
`min(1000 * 2^attempts, 30000)` and so never exceeds 30 s; a delay is only
scheduled on a close event while `attempts < maxReconnectAttempts`, and
scheduling increments the attempt counter; once the counter is exhausted a
close event moves the agent to the polling fallback, and from the polling
fallback no sequence of channel events ever changes the state or schedules
another reconnect. -/
theorem c9_reconnect_backoff_capped :
    (∀ a : Nat, reconnectDelay a = min (1000 * 2 ^ a) 30000 ∧
      reconnectDelay a ≤ 30000) ∧
    (∀ (s : AgentState) (ev : AgentEvent) (d : Nat),
      (agentStep s ev).2 = some d →
      ev = .closeEvt ∧ s.attempts < maxReconnectAttempts ∧
      d = reconnectDelay s.attempts ∧ d ≤ 30000 ∧
      (agentStep s ev).1.attempts = s.attempts + 1) ∧
    (∀ s : AgentState, s.mode ≠ .pollingOnly →
      ¬ s.attempts < maxReconnectAttempts →
      agentStep s .closeEvt = ({ mode := .pollingOnly, attempts := s.attempts }, none)) ∧
    (∀ (evs : List AgentEvent) (s : AgentState), s.mode = .pollingOnly →
      agentRun s evs = (s, [])) := by
  refine ⟨?_, ?_, ?_, ?_⟩
  · intro a
    exact ⟨rfl, Nat.min_le_right _ _⟩
  · intro s ev d h
    cases ev with
    | openOk =>
        exfalso
        cases hm : s.mode <;> simp [agentStep, hm] at h
    | closeEvt =>
        cases hm : s.mode with
        | pollingOnly => exfalso; simp [agentStep, hm] at h
        | connecting =>
            by_cases ha : s.attempts < maxReconnectAttempts
            · simp only [agentStep, hm, if_pos ha, Option.some.injEq] at h
              exact ⟨rfl, ha, h.symm, h ▸ Nat.min_le_right _ _,
                by simp [agentStep, hm, ha]⟩
            · exfalso; simp [agentStep, hm, ha] at h
        | connected =>
            by_cases ha : s.attempts < maxReconnectAttempts
            · simp only [agentStep, hm, if_pos ha, Option.some.injEq] at h
              exact ⟨rfl, ha, h.symm, h ▸ Nat.min_le_right _ _,
                by simp [agentStep, hm, ha]⟩
            · exfalso; simp [agentStep, hm, ha] at h
  · intro s hm ha
    cases hmode : s.mode <;> simp_all [agentStep]
  · intro evs
    induction evs with
    | nil => intro s h; simp [agentRun]
    | cons ev evs ih =>
        intro s h
        have hstep : agentStep s ev = (s, none) := by
          cases ev <;> simp [agentStep, h]
        simp [agentRun, hstep, ih s h]

/-- Witness for C9: a close event in `connected` mode with zero attempts
schedules the 1000 ms delay and increments the counter; a polling-only
agent ignores an arbitrary event sequence. -/
theorem c9_reconnect_backoff_capped_witness :
    (AgentEvent.closeEvt = AgentEvent.closeEvt ∧
     (AgentState.mk .connected 0).attempts < maxReconnectAttempts ∧
     (1000 : Nat) = reconnectDelay (AgentState.mk .connected 0).attempts ∧
     (1000 : Nat) ≤ 30000 ∧
     (agentStep (AgentState.mk .connected 0) .closeEvt).1.attempts =
       (AgentState.mk .connected 0).attempts + 1) ∧
    agentRun (AgentState.mk .pollingOnly 5) [.closeEvt, .openOk, .closeEvt] =
      (AgentState.mk .pollingOnly 5, []) :=
  ⟨c9_reconnect_backoff_capped.2.1 (AgentState.mk .connected 0) .closeEvt 1000 rfl,
   c9_reconnect_backoff_capped.2.2.2 [.closeEvt, .openOk, .closeEvt]
     (AgentState.mk .pollingOnly 5) rfl⟩

/-! ## C6: immediate vs debounced persistence -/

/-- During a burst whose every call lands before the pending deadline, no
timer fires; the machine ends holding the last call's state with a timer
armed one window after the last call. -/
theorem debounceRun_within_window {σ : Type} (window : Nat) :
    ∀ (calls : List (Nat × σ)) (cur : σ) (dl : Nat) (last : Nat × σ),
      calls.getLast? = some last →
      List.Chain' (fun a b => b.1 < a.1 + window) calls →
      (∀ first ∈ calls.head?, first.1 < dl) →
      debounceRun window calls ⟨cur, some dl⟩ =
        (⟨last.2, some (last.1 + window)⟩, []) := by
  intro calls
  induction calls with
  | nil => intro cur dl last h; simp at h
  | cons c cs ih =>
      intro cur dl last hlast hchain hfirst
      have hc : c.1 < dl := hfirst c (by simp)
      cases cs with
      | nil =>
          simp at hlast
          subst hlast
          simp [debounceRun, debounceCall, Nat.not_le.mpr hc]
      | cons c2 cs2 =>
          have hch := List.chain'_cons.mp hchain
          have hlast2 : (c2 :: cs2).getLast? = some last := by
            simpa using hlast
          have haux := ih c.2 (c.1 + window) last hlast2 hch.2
            (by intro f hf; simp at hf; subst hf; exact hch.1)
          have hcall : debounceCall window c.1 c.2 ⟨cur, some dl⟩ =
              (⟨c.2, some (c.1 + window)⟩, []) := by
            simp [debounceCall, Nat.not_le.mpr hc]
          generalize hrest : c2 :: cs2 = rest
          rw [hrest] at haux
          simp only [debounceRun, hcall, haux]
          simp

/-- C6: toggle, add, delete, edit, and reset persist through an immediate
synchronous `saveTasksFile` that precedes the success reply (their effect
trace is exactly save, broadcast, reply); the reorder family
(moveUp/moveDown/moveToPosition) instead schedules the 100 ms debounced
save and never calls the immediate save; and a burst of debounced-save
requests whose consecutive gaps stay below the window produces exactly one
durable write, carrying the final state, one window after the last
request. -/
theorem c6_persistence_policy :
    (∀ (saveOk : Bool) (now : Int) (taskId : String) (s : ServerState)
       (data : ChecklistData),
      s.lastData = some data → (toggleTaskById taskId data.items).1 = true →
      (serverToggle saveOk now taskId s).2 =
        [.saveNow, .broadcast (mkBroadcast (toggleTaskById taskId data.items).2
          s.selectedTaskId), .reply true]) ∧
    (∀ (saveOk : Bool) (now : Int) (newId text : String) (s : ServerState)
       (data : ChecklistData),
      s.lastData = some data →
      (serverAdd saveOk now newId text s).2 =
        [.saveNow, .broadcast (mkBroadcast (addTask newId text data.items)
          s.selectedTaskId), .reply true]) ∧
    (∀ (saveOk : Bool) (now : Int) (taskId : String) (s : ServerState)
       (data : ChecklistData),
      s.lastData = some data → (deleteTask taskId data.items).1 = true →
      (serverDelete saveOk now taskId s).2 =
        [.saveNow, .broadcast (mkBroadcast (deleteTask taskId data.items).2
          s.selectedTaskId), .reply true]) ∧
    (∀ (saveOk : Bool) (now : Int) (taskId newText : String) (s : ServerState)
       (data : ChecklistData),
      s.lastData = some data → (editTask taskId newText data.items).1 = true →
      (serverEdit saveOk now taskId newText s).2 =
        [.saveNow, .broadcast (mkBroadcast (editTask taskId newText data.items).2
          s.selectedTaskId), .reply true]) ∧
    (∀ (saveOk : Bool) (now : Int) (s : ServerState) (data : ChecklistData),
      s.lastData = some data →
      (serverReset saveOk now s).2 =
        [.saveNow, .broadcast (mkBroadcast (resetAllTasks data.items)
          s.selectedTaskId), .reply true]) ∧
    (∀ (taskId : String) (s : ServerState) (data : ChecklistData),
      s.lastData = some data → (moveTaskUp taskId data.items).1 = true →
      (serverMoveUp taskId s).2 =
        [.debouncedSave, .broadcast (mkBroadcast (moveTaskUp taskId data.items).2
          s.selectedTaskId), .reply true]) ∧
    (∀ (taskId : String) (s : ServerState) (data : ChecklistData),
      s.lastData = some data → (moveTaskDown taskId data.items).1 = true →
      (serverMoveDown taskId s).2 =
        [.debouncedSave, .broadcast (mkBroadcast (moveTaskDown taskId data.items).2
          s.selectedTaskId), .reply true]) ∧
    (∀ (taskId : String) (target : Int) (s : ServerState),
      ServerEffect.saveNow ∉ (serverMoveToPosition taskId target s).2) ∧
    (∀ (c : Nat × ChecklistData) (calls : List (Nat × ChecklistData))
       (init : ChecklistData) (last : Nat × ChecklistData),
      (c :: calls).getLast? = some last →
      List.Chain' (fun a b => b.1 < a.1 + debounceWindowMs) (c :: calls) →
      (debounceRun debounceWindowMs (c :: calls) ⟨init, none⟩).2 = [] ∧
      debounceFlush (debounceRun debounceWindowMs (c :: calls) ⟨init, none⟩).1 =
        [(last.1 + debounceWindowMs, last.2)]) := by
  refine ⟨?_, ?_, ?_, ?_, ?_, ?_, ?_, ?_, ?_⟩
  · intro saveOk now taskId s data hs hr
    simp [serverToggle, hs, hr, saveTasksFileS]
  · intro saveOk now newId text s data hs
    simp [serverAdd, hs, saveTasksFileS]
  · intro saveOk now taskId s data hs hr
    simp [serverDelete, hs, hr, saveTasksFileS]
  · intro saveOk now taskId newText s data hs hr
    simp [serverEdit, hs, hr, saveTasksFileS]
  · intro saveOk now s data hs
    simp [serverReset, hs, saveTasksFileS]
  · intro taskId s data hs hr
    simp [serverMoveUp, hs, hr]
  · intro taskId s data hs hr
    simp [serverMoveDown, hs, hr]
  · intro taskId target s
    cases hs : s.lastData with
    | none => simp [serverMoveToPosition, hs]
    | some data =>
        by_cases h0 : data.items.length = 0
        · simp [serverMoveToPosition, hs, h0]
        · cases hf : findIdxOfId taskId data.items with
          | none => simp [serverMoveToPosition, hs, h0, hf]
          | some i =>
              by_cases hc : (i : Int) = clampPos target data.items.length
              · simp [serverMoveToPosition, hs, h0, hf, hc]
              · cases hg : data.items[i]? with
                | none => simp [serverMoveToPosition, hs, h0, hf, hc, hg]
                | some task => simp [serverMoveToPosition, hs, h0, hf, hc, hg]
  · intro c calls init last hlast hchain
    cases calls with
    | nil =>
        simp at hlast
        subst hlast
        constructor
        · simp [debounceRun, debounceCall]
        · simp [debounceRun, debounceCall, debounceFlush]
    | cons c2 cs =>
        have hch := List.chain'_cons.mp hchain
        have haux := debounceRun_within_window debounceWindowMs (c2 :: cs) c.2
          (c.1 + debounceWindowMs) last (by simpa using hlast) hch.2
          (by intro f hf; simp at hf; subst hf; exact hch.1)
        have hcall : debounceCall debounceWindowMs c.1 c.2 ⟨init, none⟩ =
            (⟨c.2, some (c.1 + debounceWindowMs)⟩, []) := by
          simp [debounceCall]
        constructor
        · generalize hrest : c2 :: cs = rest
          rw [hrest] at haux
          simp only [debounceRun, hcall, haux]
          simp
        · generalize hrest : c2 :: cs = rest
          rw [hrest] at haux
          simp only [debounceRun, hcall, haux]
          simp [debounceFlush]

/-- Burst states used by the debounce witness. -/
def burstD1 : ChecklistData := { items := [taskA], ts := 1 }

/-- Second burst state. -/
def burstD2 : ChecklistData := { items := [taskB], ts := 2 }

/-- Third burst state. -/
def burstD3 : ChecklistData := { items := [taskC], ts := 3 }

/-- Witness for C6: a concrete toggle trace (immediate save before the
reply) and a burst of three debounced-save requests at 0, 40, and 90 ms —
no write fires during the burst and the single write afterwards carries the
final state at 190 ms. -/
theorem c6_persistence_policy_witness :
    (serverToggle true 5 "A" cexSelState).2 =
      [.saveNow, .broadcast (mkBroadcast (toggleTaskById "A" cexData.items).2
        cexSelState.selectedTaskId), .reply true] ∧
    (debounceRun debounceWindowMs [(0, burstD1), (40, burstD2), (90, burstD3)]
      ⟨burstD1, none⟩).2 = [] ∧
    debounceFlush (debounceRun debounceWindowMs
      [(0, burstD1), (40, burstD2), (90, burstD3)] ⟨burstD1, none⟩).1 =
      [(90 + debounceWindowMs, burstD3)] :=
  ⟨c6_persistence_policy.1 true 5 "A" cexSelState cexData rfl (by decide),
   (c6_persistence_policy.2.2.2.2.2.2.2.2 (0, burstD1) [(40, burstD2), (90, burstD3)]
     burstD1 (90, burstD3) rfl
     (by norm_num [List.chain'_cons, debounceWindowMs])).1,
   (c6_persistence_policy.2.2.2.2.2.2.2.2 (0, burstD1) [(40, burstD2), (90, burstD3)]
     burstD1 (90, burstD3) rfl
     (by norm_num [List.chain'_cons, debounceWindowMs])).2⟩

/-! ## C3: order density under mutation sequences -/

/-- The list-mutating operations quantified over by the density claim. -/
inductive StoreOp
  | add (newId text : String)
  | del (taskId : String)
  | up (taskId : String)
  | down (taskId : String)
  | toPos (taskId : String) (target : Int)
deriving Repr, DecidableEq

/-- Apply one operation to the item list (a failed operation leaves the
list unchanged, as in the source). -/
def applyOp : StoreOp → List ChecklistItem → List ChecklistItem
  | .add newId text, l => addTask newId text l
  | .del taskId, l => (deleteTask taskId l).2
  | .up taskId, l => (moveTaskUp taskId l).2
  | .down taskId, l => (moveTaskDown taskId l).2
  | .toPos taskId target, l => (moveTaskToPosition taskId target l).2

/-- Apply a finite sequence of operations, left to right. -/
def applyOps (ops : List StoreOp) (l : List ChecklistItem) : List ChecklistItem :=
  ops.foldl (fun acc op => applyOp op acc) l

/-- Every task's `order` equals its position: the configuration every full
renumbering pass establishes. -/
def aligned (l : List ChecklistItem) : Prop :=
  l.map (·.order) = (List.range l.length).map fun (i : Nat) => some (i : Int)

/-- The claim's density property: among the N tasks, each order value
`0, …, N-1` occurs exactly once. -/
def denseOrders (l : List ChecklistItem) : Prop :=
  ∀ k, k < l.length → l.countP (fun it => it.order == some (k : Int)) = 1

instance (l : List ChecklistItem) : Decidable (aligned l) :=
  inferInstanceAs (Decidable (l.map (·.order) =
    (List.range l.length).map fun (i : Nat) => some (i : Int)))

instance (l : List ChecklistItem) : Decidable (denseOrders l) :=
  inferInstanceAs (Decidable (∀ k, k < l.length →
    l.countP (fun it => it.order == some (k : Int)) = 1))

/-- Pointwise characterization of `aligned`. -/
theorem aligned_iff (l : List ChecklistItem) :
    aligned l ↔ ∀ (i : Nat) (it : ChecklistItem), l[i]? = some it →
      it.order = some (i : Int) := by
  constructor
  · intro h i it hit
    have h1 : (l.map (·.order))[i]? = some it.order := by
      rw [List.getElem?_map, hit]
      rfl
    rw [h, List.getElem?_map] at h1
    have hlen : i < l.length := by
      by_contra hh
      push_neg at hh
      rw [List.getElem?_eq_none (by simpa using hh)] at h1
      simp at h1
    rw [List.getElem?_range hlen] at h1
    simpa using h1.symm
  · intro h
    apply List.ext_getElem?
    intro n
    rw [List.getElem?_map, List.getElem?_map]
    by_cases hn : n < l.length
    · have hget : l[n]? = some l[n] := List.getElem?_eq_getElem hn
      rw [hget, List.getElem?_range hn]
      simp [h n _ hget]
    · rw [List.getElem?_eq_none (Nat.le_of_not_lt hn),
        List.getElem?_eq_none (by simpa using Nat.le_of_not_lt hn)]
      rfl

/-- `renumber` keeps the length. -/
theorem renumber_length (l : List ChecklistItem) :
    (renumber l).length = l.length := by
  simp [renumber]

/-- Elementwise view of `renumber`. -/
theorem renumber_getElem? (l : List ChecklistItem) (i : Nat) :
    (renumber l)[i]? = (l[i]?).map fun it => { it with order := some (i : Int) } := by
  rw [renumber, List.getElem?_map, List.getElem?_enum]
  cases h : l[i]? <;> simp

/-- A full renumbering pass always re-establishes alignment. -/
theorem renumber_aligned (l : List ChecklistItem) : aligned (renumber l) := by
  rw [aligned_iff]
  intro i it hit
  rw [renumber_getElem?] at hit
  cases h : l[i]? with
  | none => rw [h] at hit; simp at hit
  | some u =>
      rw [h] at hit
      simp only [Option.map_some'] at hit
      rw [← Option.some.inj hit]

/-- `setOrderAt` keeps the length. -/
theorem setOrderAt_length (l : List ChecklistItem) (i : Nat) :
    (setOrderAt l i).length = l.length := by
  unfold setOrderAt
  cases h : l[i]? <;> simp

/-- `setOrderAt` at its own index rewrites exactly the order field. -/
theorem setOrderAt_getElem?_self (l : List ChecklistItem) (i : Nat) :
    (setOrderAt l i)[i]? = (l[i]?).map fun e => { e with order := some (i : Int) } := by
  unfold setOrderAt
  cases h : l[i]? with
  | none => simp [h]
  | some e =>
      obtain ⟨hi, -⟩ := List.getElem?_eq_some_iff.mp h
      simp [h, List.getElem?_set_self hi]

/-- `setOrderAt` leaves other positions alone. -/
theorem setOrderAt_getElem?_ne (l : List ChecklistItem) (i j : Nat) (hij : i ≠ j) :
    (setOrderAt l i)[j]? = l[j]? := by
  unfold setOrderAt
  cases h : l[i]? with
  | none => rfl
  | some e => exact List.getElem?_set_ne hij

/-- `addTask` preserves alignment: the new task is appended with
`order = N`. -/
theorem aligned_addTask (newId text : String) (l : List ChecklistItem)
    (h : aligned l) : aligned (addTask newId text l) := by
  rw [aligned_iff] at h ⊢
  intro i it hit
  unfold addTask at hit
  by_cases hil : i < l.length
  · rw [List.getElem?_append_left hil] at hit
    exact h i it hit
  · by_cases hie : i = l.length
    · subst hie
      rw [List.getElem?_concat_length] at hit
      rw [← Option.some.inj hit]
    · rw [List.getElem?_eq_none (by simp; omega)] at hit
      cases hit

/-- `deleteTask` preserves alignment (full renumber on success). -/
theorem aligned_deleteTask (taskId : String) (l : List ChecklistItem)
    (h : aligned l) : aligned (deleteTask taskId l).2 := by
  unfold deleteTask
  cases hf : findIdxOfId taskId l with
  | none => exact h
  | some i => exact renumber_aligned _

/-- `moveTaskUp` preserves alignment: the wrap case renumbers everyone, and
the swap case rewrites the two touched positions to their indices while all
other positions keep their (already aligned) orders. -/
theorem aligned_moveTaskUp (taskId : String) (l : List ChecklistItem)
    (h : aligned l) : aligned (moveTaskUp taskId l).2 := by
  unfold moveTaskUp
  by_cases h0 : l.length = 0
  · simpa [h0] using h
  · rw [if_neg h0]
    split
    · exact h
    · rename_i i hf
      split
      · exact h
      · rename_i task hg
        obtain ⟨hi, -⟩ := List.getElem?_eq_some_iff.mp hg
        split
        · exact renumber_aligned _
        · rename_i hi0
          split
          · rename_i above habove
            rw [aligned_iff]
            intro j it hit
            rw [aligned_iff] at h
            by_cases hj1 : j = i - 1
            · subst hj1
              rw [setOrderAt_getElem?_self,
                setOrderAt_getElem?_ne _ _ _ (by omega),
                List.getElem?_set_self (by simp; omega)] at hit
              simp only [Option.map_some'] at hit
              rw [← Option.some.inj hit]
            · by_cases hj2 : j = i
              · subst hj2
                rw [setOrderAt_getElem?_ne _ _ _ (by omega),
                  setOrderAt_getElem?_self,
                  List.getElem?_set_ne (by omega),
                  List.getElem?_set_self hi] at hit
                simp only [Option.map_some'] at hit
                rw [← Option.some.inj hit]
              · rw [setOrderAt_getElem?_ne _ _ _ (by omega),
                  setOrderAt_getElem?_ne _ _ _ (by omega),
                  List.getElem?_set_ne (by omega),
                  List.getElem?_set_ne (by omega)] at hit
                exact h j it hit
          · rename_i habove
            exfalso
            have := List.getElem?_eq_none_iff.mp habove
            omega

/-- `moveTaskDown` preserves alignment, symmetrically to `moveTaskUp`. -/
theorem aligned_moveTaskDown (taskId : String) (l : List ChecklistItem)
    (h : aligned l) : aligned (moveTaskDown taskId l).2 := by
  unfold moveTaskDown
  by_cases h0 : l.length = 0
  · simpa [h0] using h
  · rw [if_neg h0]
    split
    · exact h
    · rename_i i hf
      split
      · exact h
      · rename_i task hg
        obtain ⟨hi, -⟩ := List.getElem?_eq_some_iff.mp hg
        split
        · exact renumber_aligned _
        · rename_i hi0
          have hi1 : i + 1 < l.length := by omega
          split
          · rename_i below hbelow
            rw [aligned_iff]
            intro j it hit
            rw [aligned_iff] at h
            by_cases hj1 : j = i + 1
            · subst hj1
              rw [setOrderAt_getElem?_self,
                setOrderAt_getElem?_ne _ _ _ (by omega),
                List.getElem?_set_self (by simp; omega)] at hit
              simp only [Option.map_some'] at hit
              rw [← Option.some.inj hit]
            · by_cases hj2 : j = i
              · subst hj2
                rw [setOrderAt_getElem?_ne _ _ _ (by omega),
                  setOrderAt_getElem?_self,
                  List.getElem?_set_ne (by omega),
                  List.getElem?_set_self hi] at hit
                simp only [Option.map_some'] at hit
                rw [← Option.some.inj hit]
              · rw [setOrderAt_getElem?_ne _ _ _ (by omega),
                  setOrderAt_getElem?_ne _ _ _ (by omega),
                  List.getElem?_set_ne (by omega),
                  List.getElem?_set_ne (by omega)] at hit
                exact h j it hit
          · rename_i hbelow
            exfalso
            have := List.getElem?_eq_none_iff.mp hbelow
            omega

/-- `moveTaskToPosition` preserves alignment: the no-op branch returns the
list unchanged and the moving branch ends in a full renumber. -/
theorem aligned_moveTaskToPosition (taskId : String) (target : Int)
    (l : List ChecklistItem) (h : aligned l) :
    aligned (moveTaskToPosition taskId target l).2 := by
  unfold moveTaskToPosition
  by_cases h0 : l.length = 0
  · simpa [h0] using h
  · rw [if_neg h0]
    split
    · exact h
    · split
      · dsimp only
        split
        · exact h
        · exact h
      · dsimp only
        split
        · exact h
        · exact renumber_aligned _

/-- Every store operation preserves alignment. -/
theorem aligned_applyOp (op : StoreOp) (l : List ChecklistItem)
    (h : aligned l) : aligned (applyOp op l) := by
  cases op with
  | add newId text => exact aligned_addTask newId text l h
  | del taskId => exact aligned_deleteTask taskId l h
  | up taskId => exact aligned_moveTaskUp taskId l h
  | down taskId => exact aligned_moveTaskDown taskId l h
  | toPos taskId target => exact aligned_moveTaskToPosition taskId target l h

/-- Any finite operation sequence preserves alignment. -/
theorem aligned_applyOps (ops : List StoreOp) :
    ∀ l : List ChecklistItem, aligned l → aligned (applyOps ops l) := by
  induction ops with
  | nil => intro l h; exact h
  | cons op ops ih =>
      intro l h
      exact ih _ (aligned_applyOp op l h)

/-- Alignment implies the claim's density: each order value `0, …, N-1`
occurs exactly once. -/
theorem denseOrders_of_aligned {l : List ChecklistItem} (h : aligned l) :
    denseOrders l := by
  intro k hk
  have h1 : l.countP (fun it => it.order == some (k : Int)) =
      (l.map (·.order)).countP (fun o => o == some (k : Int)) := by
    rw [List.countP_map]
    rfl
  rw [h1, h, List.countP_map]
  have h2 : ((List.range l.length).countP
      ((fun o => o == some (k : Int)) ∘ fun (i : Nat) => some (i : Int))) =
      (List.range l.length).countP (fun i => i == k) := by
    apply List.countP_congr
    intro i _
    simp [Function.comp]
  rw [h2]
  have h3 : (List.range l.length).countP (fun i => i == k) =
      (List.range l.length).count k := by
    rfl
  rw [h3]
  exact List.count_eq_one_of_mem (List.nodup_range _) (List.mem_range.mpr hk)

/-- C3 amended: for every store whose tasks' `order` fields equal their
positions (the configuration every renumbering pass establishes, and the
only dense configuration the code's swap fast path keeps intact), any
finite sequence of add/delete/moveUp/moveDown/moveToPosition operations
preserves that alignment, and hence the multiset of order values over the
N' remaining tasks is exactly `{0, …, N'-1}`. -/
theorem c3_alignment_invariant (ops : List StoreOp) (l : List ChecklistItem)
    (h : aligned l) :
    aligned (applyOps ops l) ∧ denseOrders (applyOps ops l) :=
  ⟨aligned_applyOps ops l h, denseOrders_of_aligned (aligned_applyOps ops l h)⟩

/-- Witness for C3: a concrete aligned three-task store pushed through a
swap, an append, a delete, and a clamped move. -/
theorem c3_alignment_invariant_witness :
    aligned (applyOps [.up "C", .add "task_d" "D", .del "A", .toPos "B" 7]
      [taskA, taskB, taskC]) ∧
    denseOrders (applyOps [.up "C", .add "task_d" "D", .del "A", .toPos "B" 7]
      [taskA, taskB, taskC]) :=
  c3_alignment_invariant [.up "C", .add "task_d" "D", .del "A", .toPos "B" 7]
    [taskA, taskB, taskC] (by decide)

/-- A store whose order multiset is dense `{0,1,2}` but permuted relative
to positions. -/
def permTaskA : ChecklistItem :=
  { id := "A", text := "Task A", done := false, completed := some false,
    group := none, order := some 2 }

/-- Second permuted fixture. -/
def permTaskB : ChecklistItem :=
  { id := "B", text := "Task B", done := false, completed := some false,
    group := none, order := some 0 }

/-- Third permuted fixture. -/
def permTaskC : ChecklistItem :=
  { id := "C", text := "Task C", done := false, completed := some false,
    group := none, order := some 1 }

/-- C3 counterexample: the claim's precondition — a dense *multiset* of
order values — is not preserved. The store `[A(order 2), B(order 0),
C(order 1)]` has order multiset `{0,1,2}`, yet a single `moveUp(C)` leaves
orders `[2, 1, 2]`: the swap fast path only rewrites the two swapped
positions, so a duplicate appears and 0 goes missing. -/
theorem c3_density_counterexample :
    denseOrders [permTaskA, permTaskB, permTaskC] ∧
    ¬ denseOrders (applyOps [.up "C"] [permTaskA, permTaskB, permTaskC]) ∧
    (applyOps [.up "C"] [permTaskA, permTaskB, permTaskC]).map (·.order) =
      [some 2, some 1, some 2] := by
  refine ⟨by decide, ?_, by decide⟩
  intro hdense
  have := hdense 0 (by decide)
  revert this
  decide
